import Mathlib

/-!
Verification of the evolu secure-sync core: a shallow embedding of
`packages/evolu-common/src/Crypto.ts` (SLIP-21 key derivation, SecretBox,
NodeId generation) and `packages/evolu-server/src/frameworks/Express.ts`
(the sync relay: HTTP POST handler, WebSocket message handler, broadcast,
and the live-connection registry), together with theorems settling the
specification's claims about them.

Bytes are modelled as `List Nat` (each element a byte value `< 256` where
that matters); effectful randomness (nonces, random character draws) is
passed explicitly as an argument.
-/

namespace Evolu

/-- Byte buffers (`Uint8Array` values) are modelled as lists of naturals. -/
abbrev Bytes := List Nat

/-! ## Relay data model (Express.ts) -/

/-- Ready-state constant `WebSocket.OPEN` of the `ws` library. -/
def WS_OPEN : Nat := 1

/-- A WebSocket client as the relay sees it: an identity (position-independent
id) and the ready state observed when the registry is read. -/
structure Client where
  id : Nat
  readyState : Nat
deriving DecidableEq, Repr

/-- A frame written to a socket: either raw bytes (`ws.send(buffer)`) or a
text frame (`ws.send(JSON.stringify(...))`). -/
inductive Frame where
  | bytes (b : Bytes)
  | text (s : String)
deriving DecidableEq, Repr

/-- Embeds `broadcast` (Express.ts lines 22-28): iterate the `clients`
registry in order and send `data` to every client whose `readyState` is
`WebSocket.OPEN`, skipping the rest.  The result is the ordered list of
(client id, frame) sends performed. -/
def broadcast (clients : List Client) (data : Bytes) : List (Nat × Frame) :=
  (clients.filter (fun c => c.readyState == WS_OPEN)).map
    (fun c => (c.id, Frame.bytes data))

/-- Outcome of the external `server.sync(bytes)` effect as discriminated by
the relay: success with an opaque payload, a failure with tag
`BadRequestError` carrying a structured error of type `ε`, or an
unclassified failure (modelled by its display text). -/
inductive SyncOutcome (ε : Type) where
  | success (payload : Bytes)
  | badRequest (error : ε)
  | unclassified (err : String)

/-- Body of an HTTP response: `res.send` with a byte buffer or a string. -/
inductive Body where
  | bytes (b : Bytes)
  | text (s : String)
deriving DecidableEq, Repr

/-- The observable HTTP response: status code, explicitly-set content type
(if any), and body. -/
structure HttpResponse where
  status : Nat
  contentType : Option String
  body : Body
deriving DecidableEq, Repr

/-- Everything the HTTP POST handler does that is observable: the response,
the ordered WebSocket sends it triggered, and the server-side log entries. -/
structure PostResult where
  response : HttpResponse
  sends : List (Nat × Frame)
  log : List String
deriving DecidableEq, Repr

/-- Embeds the `app.post("/")` handler (Express.ts lines 50-81), indexed by
the outcome of `server.sync(req.body)`.  `stringify` is `JSON.stringify` on
the structured error carried by `BadRequestError`.
On success: status 200, content type `application/x-protobuf`, body = the
payload, then `broadcast(buffer)` over the registry.
On `BadRequestError`: status 400, body = `JSON.stringify(error)`, no sends.
On an unclassified failure: `console.error(error)`, status 500, body
`"Internal Server Error"`, no sends. -/
def handlePost {ε : Type} (stringify : ε → String) (clients : List Client) :
    SyncOutcome ε → PostResult
  | .success buffer =>
      ⟨⟨200, some "application/x-protobuf", .bytes buffer⟩,
        broadcast clients buffer, []⟩
  | .badRequest error =>
      ⟨⟨400, none, .text (stringify error)⟩, [], []⟩
  | .unclassified err =>
      ⟨⟨500, none, .text "Internal Server Error"⟩, [], [err]⟩

/-- Raw WebSocket message data (`WebSocket.RawData`): a single contiguous
buffer or a list of buffer fragments. -/
inductive RawData where
  | single (b : Bytes)
  | fragments (bs : List Bytes)

/-- Embeds the normalization step of the `ws.on("message")` handler
(Express.ts lines 100-109): a contiguous buffer is used as-is, a fragment
list is concatenated (`Buffer.concat`). -/
def normalizeMessage : RawData → Bytes
  | .single b => b
  | .fragments bs => bs.flatten

/-- The JSON error notification sent to the socket when the WebSocket
handler catches any error (Express.ts line 117):
`JSON.stringify(\x7b error: "Failed to process sync request" \x7d)`. -/
def wsErrorFrame : String := "\x7b\"error\":\"Failed to process sync request\"\x7d"

/-- Log tag used by the WebSocket handler's catch block. -/
def wsLogTag : String := "Error handling sync request:"

/-- Observable behaviour of the WebSocket message handler: the ordered
(socket id, frame) sends and the server-side log entries. -/
structure WsResult where
  sends : List (Nat × Frame)
  log : List String
deriving DecidableEq, Repr

/-- Embeds the `ws.on("message")` handler (Express.ts lines 97-119), indexed
by the outcome of `server.sync` on the normalized message.  On success the
response payload is sent to the same socket `sock` only.  Any rejection of
the awaited sync effect (`BadRequestError` or unclassified alike) is caught
by the surrounding try/catch, logged, and answered with the JSON error
notification on the same socket; the socket is never closed or removed. -/
def handleWsMessage {ε : Type} (stringify : ε → String) (sock : Client) :
    SyncOutcome ε → WsResult
  | .success response => ⟨[(sock.id, Frame.bytes response)], []⟩
  | .badRequest error => ⟨[(sock.id, Frame.text wsErrorFrame)], [wsLogTag ++ stringify error]⟩
  | .unclassified err => ⟨[(sock.id, Frame.text wsErrorFrame)], [wsLogTag ++ err]⟩

/-- Process-wide relay state: the live-connection registry `clients`
(Express.ts line 19). -/
structure RelayState where
  clients : List Client
deriving DecidableEq, Repr

/-- Events the relay reacts to: a WebSocket connection being accepted, an
HTTP POST, and a WebSocket message on an existing socket. -/
inductive Event where
  | connect (ws : Client)
  | httpPost (body : Bytes)
  | wsMessage (sockId : Nat) (msg : RawData)

/-- Registry effect of one relay event: `wss.on("connection")` appends the
new socket (`clients.push(ws)`, Express.ts lines 94-96); the HTTP and
WebSocket handlers read the registry but never mutate it, and no handler
ever removes a socket. -/
def step (s : RelayState) : Event → RelayState
  | .connect ws => ⟨s.clients ++ [ws]⟩
  | .httpPost _ => s
  | .wsMessage _ _ => s

/-- Run the relay over a sequence of events, observing only the registry. -/
def run (s : RelayState) (events : List Event) : RelayState :=
  events.foldl step s

/-! ## NodeId generation (Crypto.ts lines 44-58) -/

/-- Character class of the regex `^[\w-]\x7b16\x7d$` in the `NodeId` schema
(Crypto.ts line 47): ASCII word characters (`[A-Za-z0-9_]`) or a hyphen. -/
def isWordOrHyphen (c : Char) : Bool := c.isAlphanum || c = '_' || c = '-'

/-- Embeds the `NodeId` schema validation pattern `^[\w-]\x7b16\x7d$`
(Crypto.ts line 47): exactly 16 characters, each a word character or
hyphen. -/
def nodeIdPattern (s : String) : Bool :=
  s.length == 16 && s.data.all isWordOrHyphen

/-- Lower-case hexadecimal digit, the character class of `^[0-9a-f]\x7b16\x7d$`. -/
def isHexLower (c : Char) : Bool := ('0' ≤ c && c ≤ '9') || ('a' ≤ c && c ≤ 'f')

/-- The pattern `^[0-9a-f]\x7b16\x7d$`: exactly 16 lower-case hex characters. -/
def hexPattern (s : String) : Bool :=
  s.length == 16 && s.data.all isHexLower

/-- The alphabet string passed to `customAlphabet` (Crypto.ts line 50). -/
def nodeIdAlphabet : List Char := "0123456789abcdef".data

/-- Modelled from the spec: nanoid's `customAlphabet(alphabet, size)`
(a third-party generator, not part of this repository's sources) returns a
generator producing a string of exactly `size` characters, each drawn from
`alphabet` at a random index; the random draws are the explicit `draws`
argument, reduced modulo the alphabet size. -/
def customAlphabetGen (alphabet : List Char) (size : Nat) (draws : Nat → Nat) : String :=
  ⟨(List.range size).map (fun i => alphabet.getD (draws i % alphabet.length) ' ')⟩

/-- Embeds `nanoidForNodeId = customAlphabet("0123456789abcdef", 16)`
(Crypto.ts line 50) and the `nanoidAsNodeId` effect (line 56), with the
random draws explicit. -/
def nanoidAsNodeId (draws : Nat → Nat) : String :=
  customAlphabetGen nodeIdAlphabet 16 draws

/-! ## SLIP-21 key derivation (Crypto.ts lines 60-78) -/

/-- UTF-8 encoding of a string as byte values (`new TextEncoder().encode`). -/
def utf8Bytes (s : String) : Bytes := s.toUTF8.toList.map (fun b => b.toNat)

/-- The ASCII bytes of the literal HMAC key string `"Symmetric key seed"`
(Crypto.ts line 69; @noble/hashes utf8-encodes a string key). -/
def symmetricKeySeed : Bytes := utf8Bytes "Symmetric key seed"

/-- Embeds `slip21Derive` (Crypto.ts lines 64-78), parametric in the
HMAC-SHA512 primitive `hmacSha512 key message` imported from @noble/hashes
(third-party, abstracted).  The source's for-loop over path indices, with
`m` rebound each iteration, is the fold; `e` is the 0x00 byte followed by
the UTF-8 bytes of the segment; the result is `m.slice(32, 64)`. -/
def slip21Derive (hmacSha512 : Bytes → Bytes → Bytes) (seed : Bytes)
    (path : List String) : Bytes :=
  let m := path.foldl
    (fun m p => hmacSha512 (m.take 32) (0 :: utf8Bytes p))
    (hmacSha512 symmetricKeySeed seed)
  (m.drop 32).take 32

/-- Reference SLIP-21 state iteration, following the spec's step 2 ("for
each segment `p` in `path`, in order: build `buffer` = 0x00 byte followed by
the UTF-8 bytes of p; set `state` = HMAC-SHA512(key = state[0:32], message =
buffer)"), written as explicit recursion over the path. -/
def slip21RefState (hmacSha512 : Bytes → Bytes → Bytes) :
    Bytes → List String → Bytes
  | state, [] => state
  | state, p :: rest =>
      slip21RefState hmacSha512 (hmacSha512 (state.take 32) (0 :: utf8Bytes p)) rest

/-- Reference SLIP-21 derivation following the spec's algorithm: step 1
keys HMAC-SHA512 with the ASCII string "Symmetric key seed" over the seed,
step 2 iterates over the path, step 3 returns `state[32:64]`. -/
def slip21Ref (hmacSha512 : Bytes → Bytes → Bytes) (seed : Bytes)
    (path : List String) : Bytes :=
  ((slip21RefState hmacSha512 (hmacSha512 symmetricKeySeed seed) path).drop 32).take 32

/-! ## XSalsa20-Poly1305 secretbox (Crypto.ts lines 80-113)

The `SecretBoxLive` layer delegates to `secretbox` from @noble/ciphers
(third-party, not part of this repository's sources), an alias of the
xsalsa20poly1305 construction for compatibility with libsodium / nacl, as
the source's own doc comment states.  The construction is modelled here
concretely: Salsa20 core, HSalsa20, the XSalsa20 keystream, and Poly1305,
over byte lists, with the 24-byte random nonce passed explicitly. -/

/-- 32-bit modular addition. -/
def add32 (a b : Nat) : Nat := (a + b) % 4294967296

/-- 32-bit left rotation (operands are reduced to 32 bits first). -/
def rotl32 (x n : Nat) : Nat :=
  let y := x % 4294967296
  ((y <<< n) % 4294967296) ||| (y >>> (32 - n))

/-- Salsa20 quarterround on words (y0, y1, y2, y3). -/
def quarterround (y0 y1 y2 y3 : Nat) : Nat × Nat × Nat × Nat :=
  let z1 := y1 ^^^ rotl32 (add32 y0 y3) 7
  let z2 := y2 ^^^ rotl32 (add32 z1 y0) 9
  let z3 := y3 ^^^ rotl32 (add32 z2 z1) 13
  let z0 := y0 ^^^ rotl32 (add32 z3 z2) 18
  (z0, z1, z2, z3)

/-- A Salsa20 state of 16 32-bit words. -/
structure SalsaState where
  x0 : Nat
  x1 : Nat
  x2 : Nat
  x3 : Nat
  x4 : Nat
  x5 : Nat
  x6 : Nat
  x7 : Nat
  x8 : Nat
  x9 : Nat
  x10 : Nat
  x11 : Nat
  x12 : Nat
  x13 : Nat
  x14 : Nat
  x15 : Nat
deriving DecidableEq, Repr

/-- Salsa20 columnround: quarterrounds on the four columns. -/
def columnround (s : SalsaState) : SalsaState :=
  let (a0, a4, a8, a12) := quarterround s.x0 s.x4 s.x8 s.x12
  let (b5, b9, b13, b1) := quarterround s.x5 s.x9 s.x13 s.x1
  let (c10, c14, c2, c6) := quarterround s.x10 s.x14 s.x2 s.x6
  let (d15, d3, d7, d11) := quarterround s.x15 s.x3 s.x7 s.x11
  ⟨a0, b1, c2, d3, a4, b5, c6, d7, a8, b9, c10, d11, a12, b13, c14, d15⟩

/-- Salsa20 rowround: quarterrounds on the four rows. -/
def rowround (s : SalsaState) : SalsaState :=
  let (a0, a1, a2, a3) := quarterround s.x0 s.x1 s.x2 s.x3
  let (b5, b6, b7, b4) := quarterround s.x5 s.x6 s.x7 s.x4
  let (c10, c11, c8, c9) := quarterround s.x10 s.x11 s.x8 s.x9
  let (d15, d12, d13, d14) := quarterround s.x15 s.x12 s.x13 s.x14
  ⟨a0, a1, a2, a3, b4, b5, b6, b7, c8, c9, c10, c11, d12, d13, d14, d15⟩

/-- One Salsa20 doubleround: a columnround followed by a rowround. -/
def doubleround (s : SalsaState) : SalsaState := rowround (columnround s)

/-- Iterated doublerounds. -/
def doublerounds : Nat → SalsaState → SalsaState
  | 0, s => s
  | n + 1, s => doublerounds n (doubleround s)

/-- Little-endian 32-bit word read from 4 bytes at offset `i` (bytes past
the end read as 0, as a total model of indexed loads). -/
def le32 (l : Bytes) (i : Nat) : Nat :=
  l.getD i 0 + 256 * l.getD (i + 1) 0 + 65536 * l.getD (i + 2) 0 +
    16777216 * l.getD (i + 3) 0

/-- 4-byte little-endian serialization of a 32-bit word. -/
def toLE4 (n : Nat) : Bytes :=
  [n % 256, (n >>> 8) % 256, (n >>> 16) % 256, (n >>> 24) % 256]

/-- Salsa20 constant words ("expand 32-byte k"). -/
def sigma0 : Nat := 0x61707865

/-- Salsa20 constant word 1. -/
def sigma1 : Nat := 0x3320646e

/-- Salsa20 constant word 2. -/
def sigma2 : Nat := 0x79622d32

/-- Salsa20 constant word 3. -/
def sigma3 : Nat := 0x6b206574

/-- Wordwise 32-bit addition of two Salsa20 states. -/
def addState (a b : SalsaState) : SalsaState :=
  ⟨add32 a.x0 b.x0, add32 a.x1 b.x1, add32 a.x2 b.x2, add32 a.x3 b.x3,
   add32 a.x4 b.x4, add32 a.x5 b.x5, add32 a.x6 b.x6, add32 a.x7 b.x7,
   add32 a.x8 b.x8, add32 a.x9 b.x9, add32 a.x10 b.x10, add32 a.x11 b.x11,
   add32 a.x12 b.x12, add32 a.x13 b.x13, add32 a.x14 b.x14, add32 a.x15 b.x15⟩

/-- Serialize a Salsa20 state to 64 bytes, little-endian per word. -/
def serialize (s : SalsaState) : Bytes :=
  toLE4 s.x0 ++ toLE4 s.x1 ++ toLE4 s.x2 ++ toLE4 s.x3 ++
  toLE4 s.x4 ++ toLE4 s.x5 ++ toLE4 s.x6 ++ toLE4 s.x7 ++
  toLE4 s.x8 ++ toLE4 s.x9 ++ toLE4 s.x10 ++ toLE4 s.x11 ++
  toLE4 s.x12 ++ toLE4 s.x13 ++ toLE4 s.x14 ++ toLE4 s.x15

/-- Initial Salsa20 block state for a 32-byte key, 8-byte nonce, and a
64-bit block counter. -/
def salsaInit (key nonce8 : Bytes) (counter : Nat) : SalsaState :=
  ⟨sigma0, le32 key 0, le32 key 4, le32 key 8, le32 key 12,
   sigma1, le32 nonce8 0, le32 nonce8 4,
   counter % 4294967296, (counter / 4294967296) % 4294967296,
   sigma2, le32 key 16, le32 key 20, le32 key 24, le32 key 28,
   sigma3⟩

/-- One 64-byte Salsa20 keystream block: 10 doublerounds then addition of
the initial state. -/
def salsaBlock (key nonce8 : Bytes) (counter : Nat) : Bytes :=
  let s := salsaInit key nonce8 counter
  serialize (addState (doublerounds 10 s) s)

/-- HSalsa20: 10 doublerounds on the state built from a 32-byte key and a
16-byte nonce, without the final addition; the output is words
(x0, x5, x10, x15, x6, x7, x8, x9) as 32 bytes. -/
def hsalsa20 (key nonce16 : Bytes) : Bytes :=
  let s := doublerounds 10
    ⟨sigma0, le32 key 0, le32 key 4, le32 key 8, le32 key 12,
     sigma1, le32 nonce16 0, le32 nonce16 4, le32 nonce16 8, le32 nonce16 12,
     sigma2, le32 key 16, le32 key 20, le32 key 24, le32 key 28,
     sigma3⟩
  toLE4 s.x0 ++ toLE4 s.x5 ++ toLE4 s.x10 ++ toLE4 s.x15 ++
  toLE4 s.x6 ++ toLE4 s.x7 ++ toLE4 s.x8 ++ toLE4 s.x9

/-- XSalsa20 keystream bytes at offsets 32..32+len of the concatenated
Salsa20 blocks with counters 0, 1, 2, ...; the first 32 bytes of block 0
are reserved as the Poly1305 one-time key (the NaCl secretbox layout). -/
def xsalsaStream (subkey nonce8 : Bytes) (len : Nat) : Bytes :=
  ((((List.range ((len + 32 + 63) / 64)).map
      (fun i => salsaBlock subkey nonce8 i)).flatten).drop 32).take len

/-- Little-endian value of a byte list. -/
def leNum : Bytes → Nat
  | [] => 0
  | b :: rest => b + 256 * leNum rest

/-- The Poly1305 prime 2^130 - 5. -/
def polyP : Nat := 1361129467683753853853498429727072845819

/-- The Poly1305 clamp mask applied to r. -/
def polyClamp : Nat := 0x0ffffffc0ffffffc0ffffffc0fffffff

/-- Split a byte list into its consecutive 16-byte chunks, in order (the
last may be shorter). -/
def chunks16 (l : Bytes) : List Bytes :=
  (List.range ((l.length + 15) / 16)).map (fun i => (l.drop (16 * i)).take 16)

/-- Poly1305 one-time MAC: r is the clamped little-endian load of key bytes
0..15 and s of bytes 16..31; each 16-byte chunk, extended with a high 0x01
byte, is added into the accumulator which is then multiplied by r modulo
2^130-5; the tag is the low 128 bits of acc + s, little-endian. -/
def poly1305 (polyKey : Bytes) (msg : Bytes) : Bytes :=
  let r := leNum (polyKey.take 16) &&& polyClamp
  let s := leNum ((polyKey.drop 16).take 16)
  let acc := (chunks16 msg).foldl
    (fun acc c => ((acc + leNum c + (1 <<< (8 * c.length))) * r) % polyP) 0
  (List.range 16).map (fun i => ((acc + s) >>> (8 * i)) % 256)

/-- Modelled from the spec (the XSalsa20-Poly1305-equivalent construction
of §4.2) and the nacl secretbox layout: `secretbox(key, nonce).seal` of
@noble/ciphers.  The subkey is HSalsa20 of the key and nonce[0:16]; the
Poly1305 key is the first 32 keystream bytes of block 0 under
(subkey, nonce[16:24]); the ciphertext is the plaintext XORed with the
keystream; the result is tag ‖ ciphertext. -/
def secretboxSeal (key nonce plaintext : Bytes) : Bytes :=
  let subkey := hsalsa20 key (nonce.take 16)
  let n8 := nonce.drop 16
  let polyKey := (salsaBlock subkey n8 0).take 32
  let c := List.zipWith Nat.xor plaintext (xsalsaStream subkey n8 plaintext.length)
  poly1305 polyKey c ++ c

/-- Modelled from the spec (§4.2) and the nacl secretbox layout:
`secretbox(key, nonce).open` of @noble/ciphers.  The first 16 bytes of
`data` are the expected tag; the Poly1305 tag of the remaining ciphertext is
recomputed and compared, and on mismatch the library throws (modelled as
`none`); on success the XOR decryption is returned. -/
def secretboxOpen (key nonce data : Bytes) : Option Bytes :=
  let subkey := hsalsa20 key (nonce.take 16)
  let n8 := nonce.drop 16
  let polyKey := (salsaBlock subkey n8 0).take 32
  let tagGiven := data.take 16
  let c := data.drop 16
  if tagGiven = poly1305 polyKey c then
    some (List.zipWith Nat.xor c (xsalsaStream subkey n8 c.length))
  else none

/-- Embeds `SecretBoxLive` seal (Crypto.ts lines 100-105): generate a fresh
random 24-byte nonce (passed explicitly here), `secretbox(key, nonce).seal`
on the plaintext, and return `concatBytes(nonce, ciphertext)`. -/
def secretBoxSeal (key nonce plaintext : Bytes) : Bytes :=
  nonce ++ secretboxSeal key nonce plaintext

/-- Embeds `SecretBoxLive` open (Crypto.ts lines 106-111): split the first
24 bytes of the input as the nonce, treat the remainder as ciphertext, and
run `secretbox(key, nonce).open`. -/
def secretBoxOpen (key ciphertext : Bytes) : Option Bytes :=
  secretboxOpen key (ciphertext.take 24) (ciphertext.drop 24)

/-- The Poly1305 tag that `SecretBoxLive` open recomputes for a sealed
input (the authentication criterion: open succeeds exactly when the stored
tag equals this value). -/
def openComputedTag (key sealed : Bytes) : Bytes :=
  let nonce := sealed.take 24
  let subkey := hsalsa20 key (nonce.take 16)
  let n8 := nonce.drop 16
  poly1305 ((salsaBlock subkey n8 0).take 32) ((sealed.drop 24).drop 16)

/-- Flip bit `i % 8` of byte `i / 8` of a byte list. -/
def flipBit (l : Bytes) (i : Nat) : Bytes :=
  l.set (i / 8) (l.getD (i / 8) 0 ^^^ (1 <<< (i % 8)))

/-- Outcome of running an Effect whose error channel is `ε`: a success
value, a typed failure on the error channel, or an untyped defect (a thrown
exception escaping the declared effect type). -/
inductive Outcome (ε : Type) (α : Type) where
  | success (a : α)
  | failure (e : ε)
  | defect
deriving DecidableEq, Repr

/-- The declared error channel of the `SecretBox` interface's seal and open
(Crypto.ts lines 83-93) is `never`, modelled as the uninhabited `Empty`. -/
abbrev SecretBoxErr := Empty

/-- Running the `SecretBoxLive` open effect (an `Effect.sync` whose body may
throw from inside the noble library): a thrown authentication or length
failure surfaces as a defect, never as a typed error, since the declared
error channel `SecretBoxErr` is uninhabited. -/
def secretBoxOpenEffect (key ciphertext : Bytes) : Outcome SecretBoxErr Bytes :=
  match secretBoxOpen key ciphertext with
  | some m => .success m
  | none => .defect

/-! ## Small observation helpers -/

/-- Whether `t` occurs as a contiguous substring of `s`. -/
def containsSubstr (s t : String) : Bool :=
  (List.range (s.data.length + 1)).any
    (fun i => (s.data.drop i).take t.data.length == t.data)

/-- Display text of a response body (empty for byte bodies). -/
def bodyText : Body → String
  | .text s => s
  | .bytes _ => ""

/-- JSON serialization of an object `\x7b error: m \x7d` with a plain string
message, as produced by `JSON.stringify`. -/
def jsonError (m : String) : String := "\x7b\"error\":\"" ++ m ++ "\"\x7d"

/-! ## Theorems -/

/-- The source's for-loop over path indices computes the reference SLIP-21
state recursion. -/
theorem slip21_foldl_eq_refState (H : Bytes → Bytes → Bytes) (path : List String) :
    ∀ state : Bytes,
      path.foldl (fun m p => H (m.take 32) (0 :: utf8Bytes p)) state =
        slip21RefState H state path := by
  induction path with
  | nil => intro state; rfl
  | cons p rest ih => intro state; simpa [slip21RefState] using ih _

/-- C1: `slip21Derive` equals the reference SLIP-21 algorithm built from the
same HMAC-SHA512 primitive (state seeded by HMAC keyed with the ASCII string
"Symmetric key seed" over the seed, one HMAC step per path segment in order
keyed with state[0:32] over 0x00 plus the UTF-8 segment, result state[32:64]);
for the empty path the result is bytes 32..64 of step 1's output, and when
the HMAC primitive returns 64-byte digests the result is a 32-byte key. -/
theorem c1_slip21Derive_eq_ref (H : Bytes → Bytes → Bytes) (seed : Bytes)
    (path : List String) :
    slip21Derive H seed path = slip21Ref H seed path ∧
    slip21Derive H seed [] = ((H symmetricKeySeed seed).drop 32).take 32 ∧
    ((∀ k m, (H k m).length = 64) → (slip21Derive H seed path).length = 32) := by
  refine ⟨?_, rfl, ?_⟩
  · unfold slip21Derive slip21Ref
    rw [slip21_foldl_eq_refState]
  · intro h64
    have aux : ∀ (pth : List String) (st : Bytes), st.length = 64 →
        (pth.foldl (fun m p => H (m.take 32) (0 :: utf8Bytes p)) st).length = 64 := by
      intro pth
      induction pth with
      | nil => intro st h; exact h
      | cons p rest ih => intro st _; exact ih _ (h64 _ _)
    have hm := aux path (H symmetricKeySeed seed) (h64 _ _)
    unfold slip21Derive
    simp [hm]

/-- Witness for C1 at a concrete (64-byte-digest) HMAC primitive, seed, and
path. -/
theorem c1_witness :
    slip21Derive (fun _ _ => List.replicate 64 0) [1, 2, 3] ["SLIP-0021", "Master encryption key"] =
      slip21Ref (fun _ _ => List.replicate 64 0) [1, 2, 3] ["SLIP-0021", "Master encryption key"] ∧
    (slip21Derive (fun _ _ => List.replicate 64 0) [1, 2, 3] ["SLIP-0021", "Master encryption key"]).length = 32 :=
  ⟨(c1_slip21Derive_eq_ref _ _ _).1,
   (c1_slip21Derive_eq_ref (fun _ _ => List.replicate 64 0) [1, 2, 3]
      ["SLIP-0021", "Master encryption key"]).2.2 (fun _ _ => by simp)⟩

/-- Every character of the NodeId alphabet indexed modulo its length is a
member of the alphabet, a lower-case hex digit, and a word character. -/
theorem nodeIdAlphabet_getD_mem (n : Nat) :
    nodeIdAlphabet.getD (n % nodeIdAlphabet.length) ' ' ∈ nodeIdAlphabet ∧
    isHexLower (nodeIdAlphabet.getD (n % nodeIdAlphabet.length) ' ') = true ∧
    isWordOrHyphen (nodeIdAlphabet.getD (n % nodeIdAlphabet.length) ' ') = true := by
  have hlen : nodeIdAlphabet.length = 16 := by decide
  have hlt : n % nodeIdAlphabet.length < 16 := by
    rw [hlen]; exact Nat.mod_lt _ (by decide)
  have hball : ∀ k, k < 16 →
      nodeIdAlphabet.getD k ' ' ∈ nodeIdAlphabet ∧
      isHexLower (nodeIdAlphabet.getD k ' ') = true ∧
      isWordOrHyphen (nodeIdAlphabet.getD k ' ') = true := by decide
  exact hball _ hlt

/-- C8: every value produced by `nanoidAsNodeId` is a string of exactly 16
characters drawn from the alphabet 0123456789abcdef, and matches both the
pattern `^[0-9a-f]\x7b16\x7d$` and the NodeId schema pattern
`^[\w-]\x7b16\x7d$`, for every sequence of random draws. -/
theorem c8_nanoidAsNodeId_format (draws : Nat → Nat) :
    (nanoidAsNodeId draws).length = 16 ∧
    (nanoidAsNodeId draws).data.all (fun c => decide (c ∈ nodeIdAlphabet)) = true ∧
    hexPattern (nanoidAsNodeId draws) = true ∧
    nodeIdPattern (nanoidAsNodeId draws) = true := by
  have hdata : (nanoidAsNodeId draws).data =
      (List.range 16).map
        (fun i => nodeIdAlphabet.getD (draws i % nodeIdAlphabet.length) ' ') := rfl
  have hlen : (nanoidAsNodeId draws).length = 16 := by
    show (nanoidAsNodeId draws).data.length = 16
    rw [hdata]; simp
  have hall : ∀ c ∈ (nanoidAsNodeId draws).data,
      c ∈ nodeIdAlphabet ∧ isHexLower c = true ∧ isWordOrHyphen c = true := by
    intro c hc
    rw [hdata] at hc
    rcases List.mem_map.mp hc with ⟨i, _, rfl⟩
    exact nodeIdAlphabet_getD_mem (draws i)
  refine ⟨hlen, ?_, ?_, ?_⟩
  · rw [List.all_eq_true]
    intro c hc
    exact decide_eq_true (hall c hc).1
  · unfold hexPattern
    rw [Bool.and_eq_true, List.all_eq_true]
    exact ⟨by simp [hlen], fun c hc => (hall c hc).2.1⟩
  · unfold nodeIdPattern
    rw [Bool.and_eq_true, List.all_eq_true]
    exact ⟨by simp [hlen], fun c hc => (hall c hc).2.2⟩

/-- C4: when the sync effect succeeds with a payload, the POST handler
replies with status 200, content type application/x-protobuf, and body
exactly the payload, and its side-effect sends are the broadcast, which
delivers a frame equal to the payload to every registered client observed
in open state. -/
theorem c4_handlePost_success {ε : Type} (stringify : ε → String)
    (clients : List Client) (payload : Bytes) :
    (handlePost stringify clients (.success payload)).response =
      ⟨200, some "application/x-protobuf", .bytes payload⟩ ∧
    (handlePost stringify clients (.success payload)).sends =
      broadcast clients payload ∧
    ∀ c ∈ clients, c.readyState = WS_OPEN →
      (c.id, Frame.bytes payload) ∈ (handlePost stringify clients (.success payload)).sends := by
  refine ⟨rfl, rfl, ?_⟩
  intro c hc hopen
  show (c.id, Frame.bytes payload) ∈ broadcast clients payload
  unfold broadcast
  exact List.mem_map.mpr ⟨c, List.mem_filter.mpr ⟨hc, by simp [hopen]⟩, rfl⟩

/-- Witness for C4: a two-client registry, one open and one closed. -/
theorem c4_witness :
    (⟨5, 1⟩ : Client) ∈ [(⟨5, 1⟩ : Client), ⟨7, 3⟩] ∧
    (⟨5, 1⟩ : Client).readyState = WS_OPEN ∧
    (5, Frame.bytes [9, 8]) ∈
      (handlePost (fun s : String => s) [⟨5, 1⟩, ⟨7, 3⟩] (.success [9, 8])).sends :=
  ⟨by decide, rfl,
   (c4_handlePost_success (fun s : String => s) [⟨5, 1⟩, ⟨7, 3⟩] [9, 8]).2.2
     ⟨5, 1⟩ (by decide) rfl⟩

/-- C5: when the sync effect fails with `BadRequestError` carrying `e`, the
POST handler replies with status 400 and body the JSON serialization of `e`,
and performs no WebSocket send at all. -/
theorem c5_handlePost_badRequest {ε : Type} (stringify : ε → String)
    (clients : List Client) (e : ε) :
    (handlePost stringify clients (.badRequest e)).response.status = 400 ∧
    (handlePost stringify clients (.badRequest e)).response.body =
      .text (stringify e) ∧
    (handlePost stringify clients (.badRequest e)).sends = [] :=
  ⟨rfl, rfl, rfl⟩

/-- C6 counterexample: for the unclassified failure whose display text is
"Error", the 500 response's generic body (the fixed string "Internal Server
Error") does contain the underlying error's text as a substring, refuting
the claim's non-containment clause at this input. -/
theorem c6_counterexample :
    (handlePost (fun s : String => s) [] (SyncOutcome.unclassified "Error")).response.status = 500 ∧
    containsSubstr
      (bodyText (handlePost (fun s : String => s) [] (SyncOutcome.unclassified "Error")).response.body)
      "Error" = true := by
  constructor
  · rfl
  · decide

/-- C6 amended: on an unclassified failure the handler logs the failure
server-side and replies with status 500 and the fixed generic body
"Internal Server Error", which does not depend on the underlying error in
any way (so the cause is never leaked), and no broadcast occurs. -/
theorem c6_handlePost_unclassified {ε : Type} (stringify : ε → String)
    (clients : List Client) (err err' : String) :
    (handlePost stringify clients (.unclassified err)).response.status = 500 ∧
    (handlePost stringify clients (.unclassified err)).response.body =
      .text "Internal Server Error" ∧
    (handlePost stringify clients (.unclassified err)).log = [err] ∧
    (handlePost stringify clients (.unclassified err)).sends = [] ∧
    (handlePost stringify clients (.unclassified err)).response =
      (handlePost stringify clients (.unclassified err')).response :=
  ⟨rfl, rfl, rfl, rfl, rfl⟩

/-- C7: the WebSocket message handler sends a successful sync response back
to the same socket only (no other socket receives anything); on any error it
sends the JSON error notification (an object with an "error" string field)
to that same socket; and no WebSocket message event ever changes the relay
state, so the connection remains registered and open. -/
theorem c7_handleWsMessage {ε : Type} (stringify : ε → String) (sock : Client)
    (s : RelayState) :
    (∀ payload, handleWsMessage stringify sock (.success payload) =
        ⟨[(sock.id, Frame.bytes payload)], []⟩) ∧
    (∀ payload otherId f, otherId ≠ sock.id →
        (otherId, f) ∉ (handleWsMessage stringify sock (.success payload)).sends) ∧
    (∀ e : ε, (handleWsMessage stringify sock (.badRequest e)).sends =
        [(sock.id, Frame.text wsErrorFrame)]) ∧
    (∀ err, (handleWsMessage stringify sock (.unclassified err)).sends =
        [(sock.id, Frame.text wsErrorFrame)]) ∧
    wsErrorFrame = jsonError "Failed to process sync request" ∧
    (∀ sockId msg, step s (.wsMessage sockId msg) = s) := by
  refine ⟨fun _ => rfl, ?_, fun _ => rfl, fun _ => rfl, rfl, fun _ _ => rfl⟩
  intro payload otherId f hne hmem
  simp [handleWsMessage] at hmem
  exact hne hmem.1

/-- Witness for C7: a socket with id 3 and a distinct id 4. -/
theorem c7_witness :
    (4 ≠ 3) ∧
    (4, Frame.bytes [1]) ∉
      (handleWsMessage (fun s : String => s) ⟨3, 1⟩ (.success [1])).sends :=
  ⟨by decide,
   (c7_handleWsMessage (fun s : String => s) ⟨3, 1⟩ ⟨[]⟩).2.1 [1] 4
     (Frame.bytes [1]) (by decide)⟩

/-- Registry length never decreases along any event sequence. -/
theorem run_clients_length_mono (events : List Event) :
    ∀ s : RelayState, s.clients.length ≤ (run s events).clients.length := by
  induction events with
  | nil => intro s; exact Nat.le_refl _
  | cons e rest ih =>
    intro s
    have hstep : s.clients.length ≤ (step s e).clients.length := by
      cases e <;> simp [step]
    have : run s (e :: rest) = run (step s e) rest := rfl
    rw [this]
    exact Nat.le_trans hstep (ih (step s e))

/-- C9: the live-connection registry is append-only: a `connect` event
appends exactly the new socket, HTTP POSTs and WebSocket messages leave the
registry unchanged, broadcast only reads it (every send goes to a registered
client observed open, and every open registered client receives the frame),
and the registry length never decreases over any event sequence. -/
theorem c9_registry_append_only (s : RelayState) (w : Client) (b : Bytes)
    (sockId : Nat) (msg : RawData) (events : List Event) (data : Bytes) :
    (step s (.connect w)).clients = s.clients ++ [w] ∧
    (step s (.httpPost b)).clients = s.clients ∧
    (step s (.wsMessage sockId msg)).clients = s.clients ∧
    s.clients.length ≤ (run s events).clients.length ∧
    (∀ pr ∈ broadcast s.clients data,
        ∃ c ∈ s.clients, c.readyState = WS_OPEN ∧ pr = (c.id, Frame.bytes data)) ∧
    (∀ c ∈ s.clients, c.readyState = WS_OPEN →
        (c.id, Frame.bytes data) ∈ broadcast s.clients data) := by
  refine ⟨rfl, rfl, rfl, run_clients_length_mono events s, ?_, ?_⟩
  · intro pr hpr
    unfold broadcast at hpr
    rcases List.mem_map.mp hpr with ⟨c, hc, rfl⟩
    rcases List.mem_filter.mp hc with ⟨hcs, hopen⟩
    exact ⟨c, hcs, by simpa using hopen, rfl⟩
  · intro c hc hopen
    unfold broadcast
    exact List.mem_map.mpr ⟨c, List.mem_filter.mpr ⟨hc, by simp [hopen]⟩, rfl⟩

/-- A Poly1305 tag is always exactly 16 bytes. -/
theorem poly1305_length (polyKey msg : Bytes) : (poly1305 polyKey msg).length = 16 := by
  simp [poly1305]

/-- A Salsa20 keystream block is 64 bytes. -/
theorem salsaBlock_length (key nonce8 : Bytes) (counter : Nat) :
    (salsaBlock key nonce8 counter).length = 64 := by
  simp [salsaBlock, serialize, toLE4]

/-- The XSalsa20 keystream has exactly the requested length. -/
theorem xsalsaStream_length (subkey nonce8 : Bytes) (len : Nat) :
    (xsalsaStream subkey nonce8 len).length = len := by
  unfold xsalsaStream
  have hfl : ∀ n : Nat,
      (((List.range n).map (fun i => salsaBlock subkey nonce8 i)).flatten).length = 64 * n := by
    intro n
    induction n with
    | zero => simp
    | succ k ih =>
      rw [List.range_succ]
      simp [ih, salsaBlock_length]
      ring
  simp [List.length_take, List.length_drop, hfl]
  omega

/-- XOR with the same keystream twice restores the message. -/
theorem zipWith_xor_cancel :
    ∀ (m ks : Bytes), ks.length = m.length →
      List.zipWith Nat.xor (List.zipWith Nat.xor m ks) ks = m := by
  intro m
  induction m with
  | nil => intro ks _; simp
  | cons a m ih =>
    intro ks h
    cases ks with
    | nil => simp at h
    | cons b ks =>
      have hd : Nat.xor (Nat.xor a b) b = a := Nat.xor_cancel_right b a
      simp only [List.zipWith_cons_cons]
      rw [hd]
      exact congrArg (List.cons a) (ih ks (by simpa using h))

/-- The nacl secretbox primitive round-trips for every key, nonce, and
message: opening what seal produced recomputes the identical Poly1305 tag
and undoes the keystream XOR. -/
theorem secretbox_roundtrip_core (key nonce m : Bytes) :
    secretboxOpen key nonce (secretboxSeal key nonce m) = some m := by
  unfold secretboxSeal secretboxOpen
  rw [List.take_left' (poly1305_length _ _), List.drop_left' (poly1305_length _ _)]
  rw [if_pos rfl]
  have hclen : (List.zipWith Nat.xor m
      (xsalsaStream (hsalsa20 key (nonce.take 16)) (nonce.drop 16) m.length)).length
      = m.length := by
    simp [List.length_zipWith, xsalsaStream_length]
  rw [hclen]
  exact congrArg some
    (zipWith_xor_cancel m _ (xsalsaStream_length (hsalsa20 key (nonce.take 16)) (nonce.drop 16) m.length))

/-- SecretBoxLive open returns no plaintext whenever the stored tag differs
from the recomputed Poly1305 tag. -/
theorem secretBoxOpen_none_of_tag_ne (key sealed : Bytes)
    (h : (sealed.drop 24).take 16 ≠ openComputedTag key sealed) :
    secretBoxOpen key sealed = none := by
  unfold openComputedTag at h
  unfold secretBoxOpen secretboxOpen
  exact if_neg h

/-- The recomputed tag of any sealed input is 16 bytes. -/
theorem openComputedTag_length (key sealed : Bytes) :
    (openComputedTag key sealed).length = 16 := by
  unfold openComputedTag
  exact poly1305_length _ _

/-- SecretBoxLive open fails on any input shorter than nonce + tag
(24 + 16 bytes): the stored tag is then shorter than the 16-byte recomputed
tag. -/
theorem secretBoxOpen_none_of_short (key sealed : Bytes) (h : sealed.length < 40) :
    secretBoxOpen key sealed = none := by
  apply secretBoxOpen_none_of_tag_ne
  intro heq
  have hl := congrArg List.length heq
  rw [openComputedTag_length] at hl
  simp [List.length_take, List.length_drop] at hl
  omega

/-- C2: for every key, every 24-byte nonce chosen by seal, and every
plaintext, opening the sealed message with the same key returns exactly the
plaintext. -/
theorem c2_secretBox_roundTrip (key nonce m : Bytes) (h24 : nonce.length = 24) :
    secretBoxOpen key (secretBoxSeal key nonce m) = some m := by
  unfold secretBoxSeal secretBoxOpen
  rw [List.take_left' h24, List.drop_left' h24]
  exact secretbox_roundtrip_core key nonce m

/-- Witness for C2 at a concrete key, nonce, and message. -/
theorem c2_witness :
    (List.replicate 24 7 : Bytes).length = 24 ∧
    secretBoxOpen (List.replicate 32 1)
      (secretBoxSeal (List.replicate 32 1) (List.replicate 24 7) [10, 20, 30]) =
      some [10, 20, 30] :=
  ⟨by decide, c2_secretBox_roundTrip (List.replicate 32 1) (List.replicate 24 7) [10, 20, 30] (by decide)⟩

/-- Opening a decomposed sealed input `nonce ++ (t ++ c)` fails when the
stored tag `t` differs from the Poly1305 tag recomputed over `c`. -/
theorem open_append_none (key nonce t c : Bytes) (h24 : nonce.length = 24)
    (h16 : t.length = 16)
    (hne : t ≠ poly1305
        ((salsaBlock (hsalsa20 key (nonce.take 16)) (nonce.drop 16) 0).take 32) c) :
    secretBoxOpen key (nonce ++ (t ++ c)) = none := by
  unfold secretBoxOpen secretboxOpen
  rw [List.take_left' h24, List.drop_left' h24, List.take_left' h16,
    List.drop_left' h16]
  exact if_neg hne

/-- Flipping a bit at position 192..319 of `nonce ++ (t ++ c)` (24-byte
nonce, 16-byte tag) rewrites exactly one byte of the tag `t`. -/
theorem flipBit_tag_region (nonce t c : Bytes) (i : Nat)
    (h24 : nonce.length = 24) (h16 : t.length = 16) (hlo : 192 ≤ i)
    (hhi : i < 320) :
    flipBit (nonce ++ (t ++ c)) i =
      nonce ++
        ((t.set (i / 8 - 24) (t.getD (i / 8 - 24) 0 ^^^ 1 <<< (i % 8))) ++ c) := by
  unfold flipBit
  rw [List.getD_append_right nonce (t ++ c) 0 (i / 8) (by omega),
    List.set_append_right (i / 8) _ (by omega), h24,
    List.getD_append t c 0 (i / 8 - 24) (by omega),
    List.set_append_left _ _ (by omega)]

/-- XORing a nonzero value into one in-range byte of a list changes the
list. -/
theorem set_xor_bit_ne (t : Bytes) (k b : Nat) (hk : k < t.length)
    (hb : b ≠ 0) : t.set k (t.getD k 0 ^^^ b) ≠ t := by
  intro heq
  have h1 : (t.set k (t.getD k 0 ^^^ b)).get? k = t.get? k := by rw [heq]
  rw [List.get?_set_eq_of_lt _ hk, List.get?_eq_get hk] at h1
  have h2 : t.getD k 0 = t.get ⟨k, hk⟩ := by
    show (t.get? k).getD 0 = _
    rw [List.get?_eq_get hk]
    rfl
  rw [h2] at h1
  have h3 : t.get ⟨k, hk⟩ ^^^ b = t.get ⟨k, hk⟩ := Option.some.inj h1
  apply hb
  calc b = t.get ⟨k, hk⟩ ^^^ (t.get ⟨k, hk⟩ ^^^ b) := (Nat.xor_cancel_left _ _).symm
    _ = t.get ⟨k, hk⟩ ^^^ t.get ⟨k, hk⟩ := by rw [h3]
    _ = 0 := Nat.xor_self _

/-- Flipping any single bit of the 16-byte authentication tag region (bit
positions 192..319, i.e. bytes 24..39) of any sealed message makes open
fail, for every key, 24-byte nonce, and plaintext. -/
theorem tagRegionFlip_open_none (key nonce m : Bytes) (i : Nat)
    (h24 : nonce.length = 24) (hlo : 192 ≤ i) (hhi : i < 320) :
    secretBoxOpen key (flipBit (secretBoxSeal key nonce m) i) = none := by
  unfold secretBoxSeal secretboxSeal
  rw [flipBit_tag_region nonce _ _ i h24 (poly1305_length _ _) hlo hhi]
  apply open_append_none key nonce _ _ h24
  · rw [List.length_set]
    exact poly1305_length _ _
  · apply set_xor_bit_ne
    · rw [poly1305_length]
      omega
    · have : (1 : Nat) <<< (i % 8) = 2 ^ (i % 8) := Nat.one_shiftLeft _
      rw [this]
      exact Nat.pos_iff_ne_zero.mp (Nat.pos_pow_of_pos _ (by omega))

set_option maxRecDepth 100000 in
set_option maxHeartbeats 4000000 in
/-- C3: SecretBoxLive open fails, returning no plaintext, whenever the
stored authentication tag differs from the recomputed Poly1305 tag (the
authentication criterion that a wrong key or tampered bytes violate, except
with negligible forgery probability) and whenever the sealed input is
shorter than 24 + 16 bytes; flipping any single bit of the authentication
tag region of any sealed message causes open to fail; and, at a concrete
sealed message, opening with a different key fails and flipping a nonce bit
or a ciphertext bit causes open to fail. -/
theorem c3_open_rejects_tamper (key sealed key2 sealed2 : Bytes)
    (htag : (sealed.drop 24).take 16 ≠ openComputedTag key sealed)
    (hshort : sealed2.length < 40) :
    secretBoxOpen key sealed = none ∧
    secretBoxOpen key2 sealed2 = none ∧
    (∀ (key3 nonce3 m3 : Bytes) (i : Nat), nonce3.length = 24 → 192 ≤ i →
        i < 320 →
        secretBoxOpen key3 (flipBit (secretBoxSeal key3 nonce3 m3) i) = none) ∧
    secretBoxOpen (List.replicate 32 3)
      (secretBoxSeal (List.replicate 32 1) (List.replicate 24 2) [10, 20]) = none ∧
    (secretBoxOpen (List.replicate 32 1)
      (flipBit (secretBoxSeal (List.replicate 32 1) (List.replicate 24 2) [10, 20]) 0)).isNone = true ∧
    (secretBoxOpen (List.replicate 32 1)
      (flipBit (secretBoxSeal (List.replicate 32 1) (List.replicate 24 2) [10, 20]) 330)).isNone = true :=
  ⟨secretBoxOpen_none_of_tag_ne key sealed htag,
   secretBoxOpen_none_of_short key2 sealed2 hshort,
   fun key3 nonce3 m3 i h24 hlo hhi => tagRegionFlip_open_none key3 nonce3 m3 i h24 hlo hhi,
   by decide,
   by decide,
   by decide⟩

/-- Witness for C3 at the empty sealed input (too short to even hold a
tag). -/
theorem c3_witness :
    ((([] : Bytes).drop 24).take 16 ≠ openComputedTag [] []) ∧
    (([] : Bytes).length < 40) ∧
    secretBoxOpen [] [] = none := by
  have h1 : (([] : Bytes).drop 24).take 16 ≠ openComputedTag [] [] := by
    intro h
    have hl := congrArg List.length h
    rw [openComputedTag_length] at hl
    simp at hl
  exact ⟨h1, by decide, (c3_open_rejects_tamper [] [] [] [] h1 (by decide)).1⟩

/-- C10: the SecretBox interface's declared error channel is uninhabited
(`never`), and an input that cannot authenticate — here any sealed buffer
shorter than 24 + 16 bytes — makes the open effect surface a defect (a
thrown exception escaping the declared effect type) rather than a typed
error value, which cannot exist at all. -/
theorem c10_open_defect_not_typed (key sealed : Bytes) (h : sealed.length < 40) :
    secretBoxOpenEffect key sealed = Outcome.defect ∧
    (∀ (key2 sealed2 : Bytes) (e : SecretBoxErr),
        secretBoxOpenEffect key2 sealed2 ≠ Outcome.failure e) := by
  refine ⟨?_, fun _ _ e => e.elim⟩
  unfold secretBoxOpenEffect
  rw [secretBoxOpen_none_of_short key sealed h]

/-- Witness for C10 at a concrete 3-byte sealed input. -/
theorem c10_witness :
    (([1, 2, 3] : Bytes).length < 40) ∧
    secretBoxOpenEffect (List.replicate 32 1) [1, 2, 3] = Outcome.defect :=
  ⟨by decide,
   (c10_open_defect_not_typed (List.replicate 32 1) [1, 2, 3] (by decide)).1⟩

/-- Witness for C9: a one-connect run and a concrete broadcast. -/
theorem c9_witness :
    (step ⟨[]⟩ (.connect ⟨1, 1⟩)).clients = [(⟨1, 1⟩ : Client)] ∧
    (⟨1, 1⟩ : Client) ∈ [(⟨1, 1⟩ : Client)] ∧
    (1, Frame.bytes [2]) ∈ broadcast [⟨1, 1⟩] [2] :=
  ⟨(c9_registry_append_only ⟨[]⟩ ⟨1, 1⟩ [] 0 (.single []) [] [2]).1, by decide,
   (c9_registry_append_only ⟨[(⟨1, 1⟩ : Client)]⟩ ⟨1, 1⟩ [] 0 (.single []) [] [2]).2.2.2.2.2
     ⟨1, 1⟩ (by decide) rfl⟩

end Evolu
